/-
Verification of the Arivara researcher / backend services.

Shallow embedding of the Python sources into Lean 4:
* `backend/services/credit_service.py` — credit calculation and deduction
* `backend/server/websocket_handler.py` — the `update_credits` handler
* `arivara_researcher/utils/token_tracker.py` — the token usage tracker
* `arivara_researcher/skills/deep_research.py` — context trimming and the
  deep-research recursion skeleton
* `arivara_researcher/actions/report_generation.py` — context truncation
* `arivara_researcher/utils/llm.py` — `create_chat_completion` validation

Python `float` arithmetic in `calculate_credits_from_tokens` and
`truncate_context_for_tokens` is modelled by exact rational / integer
arithmetic (the values involved are far below the magnitudes at which IEEE
doubles would change a floor); Python `int(x)` on a non-negative value is
`Int.floor`.  Database effects (Supabase tables) are modelled as explicit
state: a profiles map plus a transaction ledger.
-/

import Mathlib

namespace Arivara

/-! ## credit_service.py -/

/-- `TOKENS_PER_MILLION = 1_000_000` -/
def TOKENS_PER_MILLION : ℕ := 1000000

/-- `CREDITS_PER_MILLION_TOKENS = 4500` -/
def CREDITS_PER_MILLION_TOKENS : ℕ := 4500

/-- `CreditService.calculate_credits_from_tokens` (credit_service.py:62-76).
Python:
```
if total_tokens <= 0: return 1
credits = (total_tokens / TOKENS_PER_MILLION) * CREDITS_PER_MILLION_TOKENS
return max(1, int(credits + 0.5))
```
The float division/multiplication is modelled in ℚ; `int(credits + 0.5)` on a
non-negative float truncates toward zero, i.e. is the floor. -/
def calculate_credits_from_tokens (total_tokens : ℤ) : ℤ :=
  if total_tokens ≤ 0 then 1
  else
    let credits : ℚ := ((total_tokens : ℚ) / (TOKENS_PER_MILLION : ℚ))
      * (CREDITS_PER_MILLION_TOKENS : ℚ)
    max 1 (Int.floor (credits + 1/2))

/-- The spec's formula: `max(1, round(total_tokens / 1,000,000 × 4500))`,
rounding half up, written over ℕ with floor division. -/
def creditsSpecFormula (total_tokens : ℕ) : ℕ :=
  max 1 ((4500 * total_tokens + 500000) / 1000000)

/-- A credit-transaction row as inserted by `deduct_credits`
(`CreditTransactionCreate` in models/credit.py). -/
structure CreditTransaction where
  user_id : String
  amount : ℤ
  transaction_type : String
  description : String
  balance_after : ℤ
deriving DecidableEq, Repr

/-- The slice of database state the credit service touches: the `credits`
column of `user_profiles` (None = no row) and the `credit_transactions`
table. -/
structure CreditDB where
  profiles : String → Option ℤ
  transactions : List CreditTransaction

/-- `CreditService.get_credit_balance` (credit_service.py:99-118): returns the
row's `credits` if present, else 0. -/
def get_credit_balance (db : CreditDB) (user_id : String) : ℤ :=
  (db.profiles user_id).getD 0

/-- `CreditService.deduct_credits` (credit_service.py:120-172).  Refuses (and
writes nothing) when `current_balance < amount`; otherwise updates the
profile to `current_balance - amount` and inserts a debit transaction.
Returns the success flag together with the resulting state. -/
def deduct_credits (db : CreditDB) (user_id : String) (amount : ℤ)
    (description : String) : Bool × CreditDB :=
  let current_balance := get_credit_balance db user_id
  if current_balance < amount then
    (false, db)
  else
    let new_balance := current_balance - amount
    let db' : CreditDB :=
      { profiles := fun u => if u = user_id then some new_balance else db.profiles u
        transactions := db.transactions ++
          [{ user_id := user_id, amount := amount, transaction_type := "debit",
             description := description, balance_after := new_balance }] }
    (true, db')

/-! ## websocket_handler.py — `_handle_update_credits`, operation "subtract" -/

/-- The fields of the `update_credits_response` message the handler sends
(websocket_handler.py:973-993). -/
structure UpdateCreditsResponse where
  success : Bool
  previous_balance : Option ℤ
  new_balance : Option ℤ
  change : Option ℤ
deriving DecidableEq, Repr

/-- `_handle_update_credits` with `operation == "subtract"`
(websocket_handler.py:935-993): read the current balance, call
`deduct_credits`; on success reply with the re-read balance and
`change = -min(amount, current_balance)`; on failure reply
`{"success": false}`. -/
def handle_update_credits_subtract (db : CreditDB) (target_user : String)
    (amount : ℤ) (description : String) : UpdateCreditsResponse × CreditDB :=
  let current_balance := get_credit_balance db target_user
  let (success, db') := deduct_credits db target_user amount description
  if success then
    let updated_balance := get_credit_balance db' target_user
    ({ success := true, previous_balance := some current_balance,
       new_balance := some updated_balance,
       change := some (-(min amount current_balance)) }, db')
  else
    ({ success := false, previous_balance := none, new_balance := none,
       change := none }, db')

/-! ## token_tracker.py -/

/-- The arguments of one `TokenUsageTracker.add` call after the `usage` /
`usage_obj` extraction steps (token_tracker.py:92-112): both extraction
paths only re-bind `prompt_tokens`, `completion_tokens` and `total_tokens`,
so a call is determined by these three values (`total_tokens = none` when no
total is separately supplied). -/
structure AddCall where
  prompt_tokens : ℤ := 0
  completion_tokens : ℤ := 0
  total_tokens : Option ℤ := none
deriving DecidableEq, Repr

/-- The tracker's four counters (token_tracker.py:60-66), all initialised
to 0. -/
structure TrackerState where
  prompt_tokens : ℤ
  completion_tokens : ℤ
  total_tokens : ℤ
  call_count : ℕ
deriving DecidableEq, Repr

def TrackerState.init : TrackerState :=
  { prompt_tokens := 0, completion_tokens := 0, total_tokens := 0, call_count := 0 }

/-- The body of `TokenUsageTracker.add` (token_tracker.py:113-127): clamp
prompt and completion to ≥ 0 (`max(0, int(x or 0))`), take the total as
`prompt + completion` when not supplied, else clamp the supplied total to
≥ 0, and increment the four counters.  The mutex makes each call atomic, so
a run of the tracker is a fold over the sequence of calls. -/
def TrackerState.add (s : TrackerState) (c : AddCall) : TrackerState :=
  let prompt := max 0 c.prompt_tokens
  let completion := max 0 c.completion_tokens
  let total :=
    match c.total_tokens with
    | none => prompt + completion
    | some t => max 0 t
  { prompt_tokens := s.prompt_tokens + prompt,
    completion_tokens := s.completion_tokens + completion,
    total_tokens := s.total_tokens + total,
    call_count := s.call_count + 1 }

/-- The tracker state after a sequence of `add` calls, starting from a fresh
tracker; `summary()` (token_tracker.py:146-170) returns exactly these
counters. -/
def runTracker (l : List AddCall) : TrackerState :=
  l.foldl TrackerState.add TrackerState.init

/-- Componentwise order on tracker states ("all counters have not
decreased"). -/
def TrackerState.le (s₁ s₂ : TrackerState) : Prop :=
  s₁.prompt_tokens ≤ s₂.prompt_tokens
  ∧ s₁.completion_tokens ≤ s₂.completion_tokens
  ∧ s₁.total_tokens ≤ s₂.total_tokens
  ∧ s₁.call_count ≤ s₂.call_count

instance (s₁ s₂ : TrackerState) : Decidable (s₁.le s₂) := by
  unfold TrackerState.le
  infer_instance

/-! ## deep_research.py — context trimming -/

/-- `MAX_CONTEXT_WORDS = 50000` (deep_research.py:16). -/
def MAX_CONTEXT_WORDS : ℕ := 50000

/-- Counts maximal whitespace-separated runs of characters: the length of
Python's argumentless `text.split()`, which separates on whitespace and
drops empty pieces. -/
def countWordsAux : List Char → Bool → ℕ
  | [], _ => 0
  | c :: rest, inWord =>
    if c.isWhitespace then countWordsAux rest false
    else (if inWord then 0 else 1) + countWordsAux rest true

/-- `count_words` (deep_research.py:18-20): `len(text.split())`. -/
def count_words (text : String) : ℕ :=
  countWordsAux text.data false

/-- Total word count of a context list. -/
def totalWords (l : List String) : ℕ :=
  (l.map count_words).sum

/-- The loop of `trim_context_to_word_limit` (deep_research.py:25-34): walk
the reversed context list, front-inserting each item that still fits into the
accumulator and adding its words to the running total; `break` — i.e. return
the accumulator — at the first item that does not fit. -/
def trimLoop (maxWords : ℕ) : List String → ℕ → List String → List String
  | [], _, acc => acc
  | item :: rest, total, acc =>
    let words := count_words item
    if total + words ≤ maxWords then
      trimLoop maxWords rest (total + words) (item :: acc)
    else
      acc

/-- `trim_context_to_word_limit` (deep_research.py:22-36). -/
def trim_context_to_word_limit (context_list : List String)
    (max_words : ℕ := MAX_CONTEXT_WORDS) : List String :=
  trimLoop max_words context_list.reverse 0 []

/-- Greedy take on the reversed list, for analysing `trimLoop`: take items
while the running total stays within the limit. -/
def trimTake (maxWords : ℕ) : List String → ℕ → List String
  | [], _ => []
  | item :: rest, total =>
    let words := count_words item
    if total + words ≤ maxWords then item :: trimTake maxWords rest (total + words)
    else []

/-! ## report_generation.py — context truncation

Strings are modelled as `List Char` (Python indexes and slices strings by
code point). -/

/-- The literal truncation marker inserted by `truncate_context_for_tokens`
(report_generation.py:51). -/
def TRUNCATION_MARKER : List Char :=
  "\n\n[... Context truncated due to size limit ...]\n\n".data

/-- `estimate_tokens` (report_generation.py:12-20): `len(text) // 4`
(the empty-string guard returns 0, which `len // 4` also gives). -/
def estimate_tokens (text : List Char) : ℕ :=
  text.length / 4

/-- Python slice `s[-k:]`: the last `k` characters — except that `-0 == 0`,
so `k = 0` yields the whole string `s[0:]`. -/
def pyLastSlice (s : List Char) (k : ℕ) : List Char :=
  if k = 0 then s else s.drop (s.length - k)

/-- `truncate_context_for_tokens` (report_generation.py:23-56): no-op on the
empty string or when the estimate is within `max_tokens`; otherwise keep the
first `int(target_chars * 0.4)` and last `int(target_chars * 0.4)` characters
around the marker, where `target_chars = max_tokens * 4`.
`int(target_chars * 0.4)` is modelled as `target_chars * 2 / 5` (exact
value of the float computation at these magnitudes). -/
def truncate_context_for_tokens (context : List Char) (max_tokens : ℕ) : List Char :=
  if context = [] then context
  else if estimate_tokens context ≤ max_tokens then context
  else
    let target_chars := max_tokens * 4
    let first_part := target_chars * 2 / 5
    let last_part := target_chars * 2 / 5
    if context.length ≤ target_chars then context
    else context.take first_part ++ TRUNCATION_MARKER ++ pyLastSlice context last_part

/-! ## deep_research.py — the recursion skeleton of `deep_research`

The I/O at each level is abstracted by two oracles: `raw depth breadth` is
the number of `Query:` lines the LLM produced for
`generate_search_queries(query, num_queries=breadth)` — the function returns
`queries[:num_queries]`, so `min (raw depth breadth) breadth` queries are
actually issued — and `succ depth breadth` counts how many of the issued
sub-queries completed without an exception (`len(results)`). -/

/-- The number of search queries issued by one `deep_research` level:
`generate_search_queries` slices its parsed list to `[:num_queries]`
(deep_research.py:106), so at most `breadth` queries come back. -/
def issuedQueries (raw : ℕ → ℕ → ℕ) (depth breadth : ℕ) : ℕ :=
  min (raw depth breadth) breadth

/-- The list of `(depth, breadth)` pairs of all `deep_research` invocations,
following deep_research.py:344-377: after processing the current level, the
function recurses exactly once — with `new_breadth = max(2, breadth // 2)`
and `new_depth = depth - 1` — if and only if `depth > 1` and at least one
sub-query succeeded; otherwise it stops.  The recursion is structural in
`depth`, so it terminates. -/
def deepResearchCalls (raw succ : ℕ → ℕ → ℕ) : ℕ → ℕ → List (ℕ × ℕ)
  | 0, breadth => [(0, breadth)]
  | 1, breadth => [(1, breadth)]
  | d + 2, breadth =>
    if 0 < min (succ (d + 2) breadth) (issuedQueries raw (d + 2) breadth) then
      (d + 2, breadth) :: deepResearchCalls raw succ (d + 1) (max 2 (breadth / 2))
    else
      [(d + 2, breadth)]

/-- Total number of search queries issued across the whole recursive call. -/
def deepResearchQueryCount (raw succ : ℕ → ℕ → ℕ) (depth breadth : ℕ) : ℕ :=
  ((deepResearchCalls raw succ depth breadth).map
    (fun db => issuedQueries raw db.1 db.2)).sum

/-! ## llm.py — `create_chat_completion`

The provider exchange is abstracted by `respond : ℕ → String`, the response
`provider.get_chat_response` would produce on a given attempt.  Exceptions
raised by the provider are real-world I/O failures outside the model; the
claims here concern the validation logic and the loop structure. -/

/-- `for _ in range(10)` — ten structurally allowed attempts (llm.py:96). -/
def MAX_ATTEMPTS : ℕ := 10

/-- The retry loop (llm.py:96-107): each iteration's body ends in an
unconditional `return response`, and only after all `remaining` iterations
are exhausted does the hard `RuntimeError` fire. -/
def retryLoop (respond : ℕ → String) : ℕ → ℕ → Except String String
  | 0, _ => Except.error "Failed to get response from API"
  | _ + 1, attempt => Except.ok (respond attempt)

/-- `create_chat_completion`'s validation and loop (llm.py:23-107): error if
`model is None`; error if `max_tokens is not None and max_tokens > 32000`;
otherwise run the retry loop. -/
def create_chat_completion (model : Option String) (max_tokens : Option ℤ)
    (respond : ℕ → String) : Except String String :=
  match model with
  | none => Except.error "Model cannot be None"
  | some _ =>
    match max_tokens with
    | some t =>
      if 32000 < t then Except.error "Max tokens cannot be more than 32,000"
      else retryLoop respond MAX_ATTEMPTS 0
    | none => retryLoop respond MAX_ATTEMPTS 0

/-- A sequence of `add` calls supplying explicit prompt/completion pairs and
no separate total, as in C8. -/
def pairsToCalls (l : List (ℕ × ℕ)) : List AddCall :=
  l.map fun pc =>
    { prompt_tokens := (pc.1 : ℤ), completion_tokens := (pc.2 : ℤ), total_tokens := none }

/-! ## Example inputs used by counterexamples and witnesses -/

/-- A concrete database: user "alice" holds 5 credits, no transactions. -/
def dbBal5 : CreditDB :=
  { profiles := fun u => if u = "alice" then some 5 else none, transactions := [] }

/-- The single `add` call `add(prompt_tokens=5, completion_tokens=0,
total_tokens=0)`. -/
def c3Bad : List AddCall :=
  [{ prompt_tokens := 5, completion_tokens := 0, total_tokens := some 0 }]

/-- Two `add` calls: `add(prompt=100, completion=200)` and
`add(prompt=10, completion=20, total=50)`. -/
def c3Calls : List AddCall :=
  [{ prompt_tokens := 100, completion_tokens := 200, total_tokens := none },
   { prompt_tokens := 10, completion_tokens := 20, total_tokens := some 50 }]

/-! ## Helper lemmas -/

/-- One `add` call never decreases any counter. -/
theorem TrackerState.le_add (s : TrackerState) (c : AddCall) : s.le (s.add c) := by
  unfold TrackerState.le TrackerState.add
  refine ⟨?_, ?_, ?_, ?_⟩ <;> simp only
  · have := le_max_left (0 : ℤ) c.prompt_tokens
    omega
  · have := le_max_left (0 : ℤ) c.completion_tokens
    omega
  · rcases c.total_tokens with _ | t
    · have h1 := le_max_left (0 : ℤ) c.prompt_tokens
      have h2 := le_max_left (0 : ℤ) c.completion_tokens
      simp only
      omega
    · have := le_max_left (0 : ℤ) t
      simp only
      omega
  · omega

theorem TrackerState.le_refl (s : TrackerState) : s.le s :=
  ⟨Int.le_refl _, Int.le_refl _, Int.le_refl _, Nat.le_refl _⟩

theorem TrackerState.le_trans {s₁ s₂ s₃ : TrackerState} (h₁ : s₁.le s₂) (h₂ : s₂.le s₃) :
    s₁.le s₃ :=
  ⟨h₁.1.trans h₂.1, h₁.2.1.trans h₂.2.1, h₁.2.2.1.trans h₂.2.2.1, h₁.2.2.2.trans h₂.2.2.2⟩

/-- A fold of `add` calls never decreases any counter. -/
theorem TrackerState.le_foldl (s : TrackerState) (l : List AddCall) :
    s.le (l.foldl TrackerState.add s) := by
  induction l generalizing s with
  | nil => exact s.le_refl
  | cons c l ih =>
      exact TrackerState.le_trans (s.le_add c) (ih (s.add c))

/-- The total-vs-components invariant is preserved by `add` whenever an
explicitly supplied total is at least the call's (clamped) prompt and
completion counts. -/
theorem TrackerState.add_inv (s : TrackerState) (c : AddCall)
    (hs : max s.prompt_tokens s.completion_tokens ≤ s.total_tokens)
    (hc : ∀ t, c.total_tokens = some t →
      max (max 0 c.prompt_tokens) (max 0 c.completion_tokens) ≤ max 0 t) :
    max (s.add c).prompt_tokens (s.add c).completion_tokens ≤ (s.add c).total_tokens := by
  unfold TrackerState.add
  simp only
  rcases htc : c.total_tokens with _ | t
  · simp only [max_le_iff] at hs ⊢
    have h1 := le_max_left (0 : ℤ) c.prompt_tokens
    have h2 := le_max_left (0 : ℤ) c.completion_tokens
    have h3 := le_max_right (0 : ℤ) c.prompt_tokens
    have h4 := le_max_right (0 : ℤ) c.completion_tokens
    omega
  · have hct := hc t htc
    simp only [max_le_iff] at hs hct ⊢
    omega

/-- When no call supplies an explicit total, the fold keeps
`total = prompt + completion` relative to the start state. -/
theorem TrackerState.foldl_total_eq (s : TrackerState) (l : List AddCall)
    (h : ∀ c ∈ l, c.total_tokens = none) :
    (l.foldl TrackerState.add s).total_tokens
        - (l.foldl TrackerState.add s).prompt_tokens
        - (l.foldl TrackerState.add s).completion_tokens
      = s.total_tokens - s.prompt_tokens - s.completion_tokens := by
  induction l generalizing s with
  | nil => rfl
  | cons c l ih =>
      have hc : c.total_tokens = none := h c (List.mem_cons_self c l)
      have hl : ∀ c' ∈ l, c'.total_tokens = none := fun c' hm => h c' (List.mem_cons_of_mem c hm)
      rw [List.foldl_cons, ih (s.add c) hl]
      unfold TrackerState.add
      rw [hc]
      simp only
      ring

/-- The invariant holds along the whole fold, given the explicit-total
hypothesis for every call. -/
theorem TrackerState.foldl_inv (s : TrackerState) (l : List AddCall)
    (hs : max s.prompt_tokens s.completion_tokens ≤ s.total_tokens)
    (h : ∀ c ∈ l, ∀ t, c.total_tokens = some t →
      max (max 0 c.prompt_tokens) (max 0 c.completion_tokens) ≤ max 0 t) :
    max (l.foldl TrackerState.add s).prompt_tokens
        (l.foldl TrackerState.add s).completion_tokens
      ≤ (l.foldl TrackerState.add s).total_tokens := by
  induction l generalizing s with
  | nil => exact hs
  | cons c l ih =>
      exact ih (s.add c)
        (s.add_inv c hs (h c (List.mem_cons_self c l)))
        (fun c' hm => h c' (List.mem_cons_of_mem c hm))

theorem totalWords_nil : totalWords [] = 0 := rfl

theorem totalWords_cons (x : String) (l : List String) :
    totalWords (x :: l) = count_words x + totalWords l := by
  simp [totalWords]

/-- The accumulator loop computes the reversed greedy take, front of the
accumulator. -/
theorem trimLoop_eq_trimTake (m : ℕ) (r : List String) (t : ℕ) (acc : List String) :
    trimLoop m r t acc = (trimTake m r t).reverse ++ acc := by
  induction r generalizing t acc with
  | nil => simp [trimLoop, trimTake]
  | cons item rest ih =>
      unfold trimLoop trimTake
      by_cases hfit : t + count_words item ≤ m
      · simp only [hfit, if_true, ih]
        simp
      · simp [hfit]

/-- The greedy take keeps the running total within the limit. -/
theorem trimTake_le (m : ℕ) (r : List String) (t : ℕ) (ht : t ≤ m) :
    t + totalWords (trimTake m r t) ≤ m := by
  induction r generalizing t with
  | nil => simpa [trimTake, totalWords]
  | cons item rs ih =>
      unfold trimTake
      by_cases hfit : t + count_words item ≤ m
      · have hrec := ih (t + count_words item) hfit
        simp only [hfit, if_true, totalWords_cons]
        omega
      · simpa [hfit, totalWords]

/-- When the whole input exceeds the budget, the greedy take stops at an
explicit overflowing item: the input splits as the take, then an item `y`
that would push the running total past the limit. -/
theorem trimTake_overflow (m : ℕ) (r : List String) (t : ℕ) (ht : t ≤ m)
    (h : m < t + totalWords r) :
    ∃ y rest, r = trimTake m r t ++ y :: rest
      ∧ m < t + totalWords (trimTake m r t) + count_words y := by
  induction r generalizing t with
  | nil =>
      exfalso
      rw [totalWords_nil] at h
      omega
  | cons item rs ih =>
      rw [totalWords_cons] at h
      unfold trimTake
      by_cases hfit : t + count_words item ≤ m
      · have h' : m < (t + count_words item) + totalWords rs := by omega
        obtain ⟨y, rest, hsplit, hover⟩ := ih (t + count_words item) hfit h'
        refine ⟨y, rest, ?_, ?_⟩
        · simp only [hfit, if_true]
          rw [List.cons_append, ← hsplit]
        · simp only [hfit, if_true, totalWords_cons]
          omega
      · refine ⟨item, rs, by simp [hfit], ?_⟩
        simp only [hfit, if_false, totalWords_nil]
        omega

theorem totalWords_reverse (l : List String) : totalWords l.reverse = totalWords l := by
  simp [totalWords, List.sum_reverse]

/-- Folding explicit pairs accumulates exactly the sums of the pairs and the
number of calls. -/
theorem TrackerState.foldl_pairs (s : TrackerState) (l : List (ℕ × ℕ)) :
    (List.foldl TrackerState.add s (pairsToCalls l)).prompt_tokens
        = s.prompt_tokens + (l.map fun pc => (pc.1 : ℤ)).sum
    ∧ (List.foldl TrackerState.add s (pairsToCalls l)).completion_tokens
        = s.completion_tokens + (l.map fun pc => (pc.2 : ℤ)).sum
    ∧ (List.foldl TrackerState.add s (pairsToCalls l)).call_count
        = s.call_count + l.length := by
  induction l generalizing s with
  | nil => simp [pairsToCalls]
  | cons pc l ih =>
      simp only [pairsToCalls, List.map_cons, List.foldl_cons, List.length_cons,
        List.sum_cons] at *
      obtain ⟨ih1, ih2, ih3⟩ := ih (s.add
        { prompt_tokens := (pc.1 : ℤ), completion_tokens := (pc.2 : ℤ), total_tokens := none })
      rw [ih1, ih2, ih3]
      unfold TrackerState.add
      have h1 : max (0 : ℤ) (pc.1 : ℤ) = (pc.1 : ℤ) := max_eq_right (Int.natCast_nonneg _)
      have h2 : max (0 : ℤ) (pc.2 : ℤ) = (pc.2 : ℤ) := max_eq_right (Int.natCast_nonneg _)
      simp only [h1, h2]
      refine ⟨by ring, by ring, by omega⟩

/-! ## Claim theorems -/

theorem calc_credits_eq_spec (t : ℕ) :
    calculate_credits_from_tokens t = creditsSpecFormula t := by
  unfold calculate_credits_from_tokens creditsSpecFormula
  unfold TOKENS_PER_MILLION CREDITS_PER_MILLION_TOKENS
  rcases Nat.eq_zero_or_pos t with h | h
  · subst h; norm_num
  · have ht : ¬((t : ℤ) ≤ 0) := by
      simp only [not_le]
      exact_mod_cast h
    rw [if_neg ht]
    have hq : ((t : ℤ) : ℚ) / ((1000000 : ℕ) : ℚ) * ((4500 : ℕ) : ℚ) + 1/2
        = (((9 * t + 1000 : ℕ) : ℤ) : ℚ) / ((2000 : ℕ) : ℚ) := by
      push_cast
      field_simp
      ring
    simp only [hq, Rat.floor_intCast_div_natCast]
    have hdiv : ((9 * t + 1000 : ℕ) : ℤ) / ((2000 : ℕ) : ℤ) = ((9 * t + 1000) / 2000 : ℕ) :=
      (Int.natCast_div (9 * t + 1000) 2000).symm
    rw [hdiv]
    have hnat : (4500 * t + 500000) / 1000000 = (9 * t + 1000) / 2000 := by omega
    rw [hnat]
    push_cast [Nat.cast_max]
    rfl

/-- C2: `calculate_credits_from_tokens` converts tokens to credits at exactly
4500 credits per 1,000,000 tokens, rounded to the nearest integer (half up)
with a minimum of 1: for every non-negative token count the result is
`max(1, round(tokens/1,000,000 × 4500))`; in particular 1,000,000 tokens yield
4500 credits, 2,000,000 yield 9000, and 0 or 1 tokens yield 1. -/
theorem claim_C2_credits_from_tokens :
    (∀ t : ℕ, calculate_credits_from_tokens t = (creditsSpecFormula t : ℤ))
    ∧ calculate_credits_from_tokens 1000000 = 4500
    ∧ calculate_credits_from_tokens 2000000 = 9000
    ∧ calculate_credits_from_tokens 0 = 1
    ∧ calculate_credits_from_tokens 1 = 1 := by
  have h := calc_credits_eq_spec
  have h1 := h 1000000
  have h2 := h 2000000
  have h0 := h 0
  have h3 := h 1
  norm_num [creditsSpecFormula] at h1 h2 h0 h3
  exact ⟨h, h1, h2, h0, h3⟩

/-- C1 counterexample: with a stored balance of 5 and a subtract request for
10, the resulting stored balance is 5 (unchanged), not 0, and no change of
`-5` is reported — the deduction is refused rather than clamped. -/
theorem claim_C1_counterexample :
    ¬ (get_credit_balance (handle_update_credits_subtract dbBal5 "alice" 10 "d").2 "alice" = 0
       ∧ (handle_update_credits_subtract dbBal5 "alice" 10 "d").1.change = some (-5)) := by
  decide

/-- C1 (amended): for every update_credits request with operation "subtract"
and amount greater than the target user's current balance, the deduction is
refused rather than clamped: the stored balance is unchanged (not set to 0)
and the handler reports failure (`success = false`) instead of a change of
`-current_balance`. -/
theorem claim_C1_amended (db : CreditDB) (u : String) (amount : ℤ) (d : String)
    (h : get_credit_balance db u < amount) :
    get_credit_balance (handle_update_credits_subtract db u amount d).2 u
      = get_credit_balance db u
    ∧ (handle_update_credits_subtract db u amount d).1.success = false := by
  unfold handle_update_credits_subtract deduct_credits
  rw [if_pos h]
  exact ⟨rfl, rfl⟩

/-- C1 amended, witnessed at the concrete counterexample state: balance 5,
subtract 10. -/
theorem claim_C1_amended_witness :
    get_credit_balance dbBal5 "alice" < 10
    ∧ (get_credit_balance (handle_update_credits_subtract dbBal5 "alice" 10 "d").2 "alice"
        = get_credit_balance dbBal5 "alice"
      ∧ (handle_update_credits_subtract dbBal5 "alice" 10 "d").1.success = false) :=
  ⟨by decide, claim_C1_amended dbBal5 "alice" 10 "d" (by decide)⟩

/-- C9: for every update_credits request with operation "subtract" and amount
strictly greater than the current balance, no state changes at all:
`deduct_credits` returns `false` with the database untouched (no profile
update, no ledger row), and the handler replies with `success = false`. -/
theorem claim_C9_insufficient_balance_no_state_change (db : CreditDB) (u : String)
    (amount : ℤ) (d : String) (h : get_credit_balance db u < amount) :
    deduct_credits db u amount d = (false, db)
    ∧ (handle_update_credits_subtract db u amount d).1.success = false := by
  have hd : deduct_credits db u amount d = (false, db) := by
    unfold deduct_credits
    rw [if_pos h]
  refine ⟨hd, ?_⟩
  unfold handle_update_credits_subtract
  rw [hd]
  rfl

/-- C3 counterexample: one `add` call with `prompt_tokens=5`,
`completion_tokens=0` and an explicitly supplied `total_tokens=0` leaves the
tracker with `total_tokens = 0 < 5 = max(prompt_tokens, completion_tokens)`,
violating the claimed invariant `total_tokens ≥ max(prompt, completion)`. -/
theorem claim_C3_counterexample :
    ¬ (max (runTracker c3Bad).prompt_tokens (runTracker c3Bad).completion_tokens
      ≤ (runTracker c3Bad).total_tokens) := by
  decide

/-- C3 (amended): across every sequence of `add` calls in which each call
that supplies an explicit total supplies one at least the call's own
(non-negatively coerced) prompt and completion counts, the tracker keeps
`total_tokens ≥ max(prompt_tokens, completion_tokens)`; whenever no total is
separately supplied, `total_tokens = prompt_tokens + completion_tokens`; and
all four counters are monotonically non-decreasing along the sequence. -/
theorem claim_C3_amended (l : List AddCall)
    (h : ∀ c ∈ l, ∀ t, c.total_tokens = some t →
      max (max 0 c.prompt_tokens) (max 0 c.completion_tokens) ≤ max 0 t) :
    max (runTracker l).prompt_tokens (runTracker l).completion_tokens
        ≤ (runTracker l).total_tokens
    ∧ ((∀ c ∈ l, c.total_tokens = none) →
        (runTracker l).total_tokens
          = (runTracker l).prompt_tokens + (runTracker l).completion_tokens)
    ∧ ∀ l₁ l₂, l = l₁ ++ l₂ → (runTracker l₁).le (runTracker l) := by
  refine ⟨?_, ?_, ?_⟩
  · exact TrackerState.foldl_inv TrackerState.init l (by decide) h
  · intro hn
    have hfe := TrackerState.foldl_total_eq TrackerState.init l hn
    have h0 : TrackerState.init.total_tokens - TrackerState.init.prompt_tokens
        - TrackerState.init.completion_tokens = 0 := rfl
    rw [h0] at hfe
    unfold runTracker
    omega
  · intro l₁ l₂ hl
    subst hl
    unfold runTracker
    rw [List.foldl_append]
    exact TrackerState.le_foldl _ l₂

/-- C3 amended, witnessed on the sequence
`[add(prompt=100, completion=200), add(prompt=10, completion=20, total=50)]`. -/
theorem claim_C3_amended_witness :
    max (runTracker c3Calls).prompt_tokens (runTracker c3Calls).completion_tokens
      ≤ (runTracker c3Calls).total_tokens
    ∧ ((∀ c ∈ c3Calls, c.total_tokens = none) →
        (runTracker c3Calls).total_tokens
          = (runTracker c3Calls).prompt_tokens + (runTracker c3Calls).completion_tokens)
    ∧ ∀ l₁ l₂, c3Calls = l₁ ++ l₂ → (runTracker l₁).le (runTracker c3Calls) :=
  claim_C3_amended c3Calls
    (by
      intro c hc t ht
      simp only [c3Calls, List.mem_cons, List.not_mem_nil, or_false] at hc
      rcases hc with hc | hc <;> subst hc <;>
        simp only [Option.some.injEq, reduceCtorEq] at ht
      subst ht
      decide)

/-- C8: for any sequence of `add` calls on one tracker supplying explicit
prompt/completion pairs `(p_i, c_i)` — executed in any order, i.e. for any
permutation of the pairs, since the mutex serialises concurrent calls into
some interleaving — the final summary's `prompt_tokens` is `Σ p_i`,
`completion_tokens` is `Σ c_i`, and `call_count` is the number of calls. -/
theorem claim_C8_pair_sums (l l' : List (ℕ × ℕ)) (hperm : l.Perm l') :
    (runTracker (pairsToCalls l')).prompt_tokens = (l.map fun pc => (pc.1 : ℤ)).sum
    ∧ (runTracker (pairsToCalls l')).completion_tokens = (l.map fun pc => (pc.2 : ℤ)).sum
    ∧ (runTracker (pairsToCalls l')).call_count = l.length := by
  obtain ⟨h1, h2, h3⟩ := TrackerState.foldl_pairs TrackerState.init l'
  unfold runTracker
  rw [h1, h2, h3]
  have hs1 : ((l.map fun pc => (pc.1 : ℤ)).sum) = ((l'.map fun pc => (pc.1 : ℤ)).sum) :=
    (hperm.map _).sum_eq
  have hs2 : ((l.map fun pc => (pc.2 : ℤ)).sum) = ((l'.map fun pc => (pc.2 : ℤ)).sum) :=
    (hperm.map _).sum_eq
  refine ⟨?_, ?_, ?_⟩
  · rw [hs1]; simp [TrackerState.init]
  · rw [hs2]; simp [TrackerState.init]
  · rw [hperm.length_eq]; simp [TrackerState.init]

/-- C8 witnessed on the pairs `[(1,2),(3,4)]` run in the interleaved order
`[(3,4),(1,2)]`. -/
theorem claim_C8_witness :
    ([((1 : ℕ), (2 : ℕ)), (3, 4)].Perm [(3, 4), (1, 2)])
    ∧ ((runTracker (pairsToCalls [(3, 4), (1, 2)])).prompt_tokens
          = ([((1 : ℕ), (2 : ℕ)), (3, 4)].map fun pc => (pc.1 : ℤ)).sum
      ∧ (runTracker (pairsToCalls [(3, 4), (1, 2)])).completion_tokens
          = ([((1 : ℕ), (2 : ℕ)), (3, 4)].map fun pc => (pc.2 : ℤ)).sum
      ∧ (runTracker (pairsToCalls [(3, 4), (1, 2)])).call_count
          = [((1 : ℕ), (2 : ℕ)), (3, 4)].length) :=
  ⟨by decide, claim_C8_pair_sums [(1, 2), (3, 4)] [(3, 4), (1, 2)] (by decide)⟩

/-- C4: for every context list whose cumulative word count exceeds the word
limit, `trim_context_to_word_limit` returns a contiguous suffix of the input
list, in original order, whose total word count is at most the limit; and no
item could be added back without exceeding it: the item immediately
preceding the suffix already overflows the budget. -/
theorem claim_C4_trim_is_maximal_suffix (ctx : List String) (m : ℕ)
    (h : m < totalWords ctx) :
    trim_context_to_word_limit ctx m <:+ ctx
    ∧ totalWords (trim_context_to_word_limit ctx m) ≤ m
    ∧ ∃ y, (y :: trim_context_to_word_limit ctx m) <:+ ctx
        ∧ m < totalWords (y :: trim_context_to_word_limit ctx m) := by
  unfold trim_context_to_word_limit
  rw [trimLoop_eq_trimTake, List.append_nil]
  have hover := trimTake_overflow m ctx.reverse 0 (Nat.zero_le m)
    (by rw [totalWords_reverse]; omega)
  obtain ⟨y, rest, hsplit, hovery⟩ := hover
  have hctx : ctx = rest.reverse ++ y :: (trimTake m ctx.reverse 0).reverse := by
    conv_lhs => rw [← List.reverse_reverse ctx, hsplit]
    simp [List.reverse_append]
  have hle := trimTake_le m ctx.reverse 0 (Nat.zero_le m)
  refine ⟨?_, ?_, y, ?_, ?_⟩
  · exact ⟨rest.reverse ++ [y], by rw [List.append_assoc]; simpa using hctx.symm⟩
  · rw [totalWords_reverse]
    omega
  · exact ⟨rest.reverse, hctx.symm⟩
  · rw [totalWords_cons, totalWords_reverse]
    omega

/-- C4 witnessed on `["a a", "b b", "c c"]` with a 4-word limit: the result
is the suffix `["b b", "c c"]`. -/
theorem claim_C4_witness :
    4 < totalWords ["a a", "b b", "c c"]
    ∧ (trim_context_to_word_limit ["a a", "b b", "c c"] 4 <:+ ["a a", "b b", "c c"]
      ∧ totalWords (trim_context_to_word_limit ["a a", "b b", "c c"] 4) ≤ 4
      ∧ ∃ y, (y :: trim_context_to_word_limit ["a a", "b b", "c c"] 4) <:+ ["a a", "b b", "c c"]
          ∧ 4 < totalWords (y :: trim_context_to_word_limit ["a a", "b b", "c c"] 4)) :=
  ⟨by decide, claim_C4_trim_is_maximal_suffix ["a a", "b b", "c c"] 4 (by decide)⟩

/-- C10: for every context list whose last element by itself contains more
words than the limit, `trim_context_to_word_limit` returns the empty list:
trimming stops at the first most-recent item that does not fit, discarding
all earlier items even if they would individually fit. -/
theorem claim_C10_oversized_last_item (l : List String) (x : String) (m : ℕ)
    (h : m < count_words x) :
    trim_context_to_word_limit (l ++ [x]) m = [] := by
  unfold trim_context_to_word_limit
  rw [List.reverse_append]
  simp only [List.reverse_cons, List.reverse_nil, List.nil_append, List.singleton_append]
  unfold trimLoop
  have hnot : ¬(count_words x ≤ m) := by omega
  simp [hnot]

/-- C10 witnessed on `["a", "b b b"]` with a 2-word limit: the 3-word last
item does not fit, so the result is `[]` even though `"a"` alone would
fit. -/
theorem claim_C10_witness :
    2 < count_words "b b b"
    ∧ trim_context_to_word_limit (["a"] ++ ["b b b"]) 2 = [] :=
  ⟨by decide, claim_C10_oversized_last_item ["a"] "b b b" 2 (by decide)⟩

/-- C5 counterexample: with `max_tokens = 0` and the 4-character context
`"aaaa"` (estimated at 1 token > 0), the Python slice `context[-0:]` is the
whole string, so the result is the marker followed by the entire context —
its length exceeds `max_tokens*4 + len(marker)`. -/
theorem claim_C5_counterexample :
    ¬ ((truncate_context_for_tokens "aaaa".data 0).length
        ≤ 0 * 4 + TRUNCATION_MARKER.length) := by
  decide

/-- C5 (amended): for `max_tokens ≥ 1`, every context whose estimated token
count (length divided by 4, floored) exceeds `max_tokens` is truncated to
exactly its first `⌊0.4 × max_tokens × 4⌋` characters, the literal marker,
and its last `⌊0.4 × max_tokens × 4⌋` characters, for a total length of at
most `max_tokens*4 + len(marker)`; and every context already estimated at or
under `max_tokens` is returned unchanged. -/
theorem claim_C5_amended (context : List Char) (mt : ℕ) :
    (1 ≤ mt → mt < estimate_tokens context →
      truncate_context_for_tokens context mt
          = context.take (mt * 4 * 2 / 5) ++ TRUNCATION_MARKER
              ++ context.drop (context.length - mt * 4 * 2 / 5)
        ∧ (truncate_context_for_tokens context mt).length
            ≤ mt * 4 + TRUNCATION_MARKER.length)
    ∧ (estimate_tokens context ≤ mt → truncate_context_for_tokens context mt = context) := by
  constructor
  · intro hmt h
    unfold estimate_tokens at h
    have hlen : 4 * mt + 4 ≤ context.length := by omega
    have hne : ¬(context = []) := by
      intro h0
      rw [h0] at hlen
      simp at hlen
    have hk : ¬(mt * 4 * 2 / 5 = 0) := by omega
    have heq : truncate_context_for_tokens context mt
        = context.take (mt * 4 * 2 / 5) ++ TRUNCATION_MARKER
            ++ context.drop (context.length - mt * 4 * 2 / 5) := by
      unfold truncate_context_for_tokens pyLastSlice estimate_tokens
      rw [if_neg hne, if_neg (by omega), if_neg (by omega), if_neg hk]
    refine ⟨heq, ?_⟩
    rw [heq]
    simp only [List.length_append, List.length_take, List.length_drop]
    omega
  · intro h
    unfold truncate_context_for_tokens
    by_cases hne : context = []
    · rw [if_pos hne]
    · rw [if_neg hne, if_pos h]

/-- C5 amended, witnessed on the 12-character context `"abcdefghijkl"` with
`max_tokens = 1` (estimated 3 tokens): the result keeps the first and last
character around the marker; and on `"abcd"` with `max_tokens = 1` the
context is within budget, hence returned unchanged. -/
theorem claim_C5_amended_witness :
    (truncate_context_for_tokens "abcdefghijkl".data 1
        = "abcdefghijkl".data.take (1 * 4 * 2 / 5) ++ TRUNCATION_MARKER
            ++ "abcdefghijkl".data.drop ("abcdefghijkl".data.length - 1 * 4 * 2 / 5)
      ∧ (truncate_context_for_tokens "abcdefghijkl".data 1).length
          ≤ 1 * 4 + TRUNCATION_MARKER.length)
    ∧ truncate_context_for_tokens "abcd".data 1 = "abcd".data :=
  ⟨(claim_C5_amended "abcdefghijkl".data 1).1 (by decide) (by decide),
   (claim_C5_amended "abcd".data 1).2 (by decide)⟩

/-- C6: with `depth = 2`, `breadth = 4` and at least one successful
sub-query, `deep_research` recurses exactly once — at depth 1 with breadth
`max(2, 4 // 2) = 2` — and never recurses at depth 1; the queries issued
across the whole call are bounded by the level-0 breadth plus the level-1
breadth (4 + 2), and the recursion terminates (the call list is finite by
construction, structurally decreasing in depth). -/
theorem claim_C6_recursion_shape (raw succ : ℕ → ℕ → ℕ)
    (h : 0 < min (succ 2 4) (issuedQueries raw 2 4)) :
    deepResearchCalls raw succ 2 4 = [(2, 4), (1, 2)]
    ∧ max 2 (4 / 2) = 2
    ∧ deepResearchQueryCount raw succ 2 4 ≤ 4 + 2 := by
  have hcalls : deepResearchCalls raw succ 2 4 = [(2, 4), (1, 2)] := by
    show (if 0 < min (succ 2 4) (issuedQueries raw 2 4) then
        (2, 4) :: deepResearchCalls raw succ 1 (max 2 (4 / 2))
      else [(2, 4)]) = [(2, 4), (1, 2)]
    rw [if_pos h]
    rfl
  refine ⟨hcalls, rfl, ?_⟩
  unfold deepResearchQueryCount
  rw [hcalls]
  simp only [List.map_cons, List.map_nil, List.sum_cons, List.sum_nil]
  have h1 : issuedQueries raw 2 4 ≤ 4 := min_le_right _ _
  have h2 : issuedQueries raw 1 2 ≤ 2 := min_le_right _ _
  omega

/-- C6 witnessed with an oracle yielding 4 parsed queries per level and one
success per level. -/
theorem claim_C6_witness :
    0 < min ((fun _ _ => 1) 2 4) (issuedQueries (fun _ _ => 4) 2 4)
    ∧ (deepResearchCalls (fun _ _ => 4) (fun _ _ => 1) 2 4 = [(2, 4), (1, 2)]
      ∧ max 2 (4 / 2) = 2
      ∧ deepResearchQueryCount (fun _ _ => 4) (fun _ _ => 1) 2 4 ≤ 4 + 2) :=
  ⟨by decide, claim_C6_recursion_shape (fun _ _ => 4) (fun _ _ => 1) (by decide)⟩

/-- C7: `create_chat_completion` fails if and only if `model` is `None` or
`max_tokens` exceeds 32,000 (so `max_tokens = 32000` is accepted); on every
other input it returns the provider's response from the first iteration of
the retry loop, and the hard-error path after the 10-attempt loop is
unreachable (the loop's first iteration already returns). -/
theorem claim_C7_create_chat_completion (model : Option String)
    (max_tokens : Option ℤ) (respond : ℕ → String) :
    ((∃ e, create_chat_completion model max_tokens respond = Except.error e)
      ↔ model = none ∨ ∃ t, max_tokens = some t ∧ 32000 < t)
    ∧ (model ≠ none → (∀ t, max_tokens = some t → t ≤ 32000) →
        create_chat_completion model max_tokens respond = Except.ok (respond 0))
    ∧ (∀ attempt, retryLoop respond MAX_ATTEMPTS attempt = Except.ok (respond attempt)) := by
  refine ⟨?_, ?_, fun attempt => rfl⟩
  · constructor
    · rintro ⟨e, he⟩
      cases model with
      | none => exact Or.inl rfl
      | some m =>
          cases max_tokens with
          | none => simp [create_chat_completion, retryLoop, MAX_ATTEMPTS] at he
          | some t =>
              by_cases h32 : 32000 < t
              · exact Or.inr ⟨t, rfl, h32⟩
              · simp [create_chat_completion, retryLoop, MAX_ATTEMPTS, if_neg h32] at he
    · rintro (hm | ⟨t, ht, h32⟩)
      · subst hm
        exact ⟨"Model cannot be None", rfl⟩
      · subst ht
        cases model with
        | none => exact ⟨"Model cannot be None", rfl⟩
        | some m =>
            exact ⟨"Max tokens cannot be more than 32,000",
              by simp [create_chat_completion, if_pos h32]⟩
  · intro hm ht
    cases model with
    | none => exact absurd rfl hm
    | some m =>
        cases max_tokens with
        | none => rfl
        | some t =>
            have := ht t rfl
            simp only [create_chat_completion, if_neg (by omega : ¬(32000 < t))]
            rfl

/-- C7 witnessed: a valid model with `max_tokens = 32000` is accepted and
returns the first attempt's response. -/
theorem claim_C7_witness :
    create_chat_completion (some "gpt-4o") (some 32000) (fun attempt => toString attempt)
      = Except.ok (toString 0) :=
  (claim_C7_create_chat_completion (some "gpt-4o") (some 32000)
      (fun attempt => toString attempt)).2.1
    (by simp)
    (fun t ht => by
      injection ht with ht
      omega)

/-- C9 witnessed at the concrete state: balance 5, subtract 10. -/
theorem claim_C9_witness :
    get_credit_balance dbBal5 "alice" < 10
    ∧ (deduct_credits dbBal5 "alice" 10 "d" = (false, dbBal5)
      ∧ (handle_update_credits_subtract dbBal5 "alice" 10 "d").1.success = false) :=
  ⟨by decide, claim_C9_insufficient_balance_no_state_change dbBal5 "alice" 10 "d" (by decide)⟩

end Arivara
